import Mathlib

/-!
Verification of the server-registry subsystem (`src/config/serverRegistry.ts`).

The module is shallowly embedded: pure computations of the TypeScript file
become Lean functions, the Redis client becomes an explicit command trace
(`Cmd`), module-level mutable state becomes an explicit `RegState` record
threaded through the lifecycle operations, and promise rejection becomes
`Except`.  `JSON.parse` of a stored record is abstracted as an
`Option ServerInfo` value per hash entry (`none` = unparsable), and the
pipelined `EXISTS` results are abstracted as a liveness oracle
`marker : String → Bool` keyed by server id (hash fields are unique).
`localeCompare` is modelled as code-point lexicographic comparison, which is
what the default locale does on the ASCII ids at issue; only its sign is ever
used by the code.  JavaScript `Array.prototype.sort` is stable and the
comparator below induces a total preorder, so the result is the stable sort of
the input, modelled by `List.insertionSort` on the comparator-derived order.
-/

namespace ServerRegistry

/-- `REGISTRY_KEY` constant from the source: the Redis hash holding all
server records. -/
def REGISTRY_KEY : String := "server:registry"

/-- `HEARTBEAT_TTL` constant from the source (seconds). -/
def HEARTBEAT_TTL : Nat := 30

/-- `HEARTBEAT_INTERVAL_MS` constant from the source. -/
def HEARTBEAT_INTERVAL_MS : Nat := 10000

/-- The per-server liveness-marker key, `server:registry:ttl:<serverId>`. -/
def ttlKey (serverId : String) : String := "server:registry:ttl:" ++ serverId

/-- The `ServerInfo` interface of the source. -/
structure ServerInfo where
  serverId : String
  hostname : String
  pid : Nat
  startedAt : String
  lastHeartbeat : String
deriving Repr, DecidableEq

/-- The `ServerCache` interface of the source (the in-memory snapshot).
`myIndex` is an integer because `-1` is the not-present sentinel. -/
structure ServerCache where
  servers : List ServerInfo
  count : Nat
  myIndex : Int
  updatedAt : Nat
deriving Repr, DecidableEq

/-- The initial value of the module variable `_cache`. -/
def initCache : ServerCache :=
  { servers := [], count := 0, myIndex := -1, updatedAt := 0 }

/-- Decimal value of a digit string, as `parseInt` computes it on an
all-digit input. -/
def digitsToNat (ds : List Char) : Nat :=
  ds.foldl (fun n c => n * 10 + (c.toNat - 48)) 0

/-- The `naturalKey` helper of `refreshCache`: the match of
`/^(.*?)(-\x3f\d+)$/` against the id.  The lazy prefix group makes the match
take the longest suffix of the form optional minus sign followed by a
nonempty digit run; `parseInt` then parses that suffix, minus sign included.
If the id does not end in a digit there is no match and the result is the
whole id with numeric part `0`. -/
def naturalKey (id : String) : String × Int :=
  let rev := id.data.reverse
  let digitsRev := rev.takeWhile (fun c => c.isDigit)
  if digitsRev.isEmpty then (id, 0)
  else
    let rest := rev.drop digitsRev.length
    let n : Int := (digitsToNat digitsRev.reverse : Nat)
    match rest with
    | '-' :: rest2 => (String.mk rest2.reverse, -n)
    | _ => (String.mk rest.reverse, n)

/-- Sign-valued string comparison, modelling `localeCompare` (default locale,
ASCII ids): negative, zero or positive according to code-point order. -/
def strCmpInt (a b : String) : Int :=
  if a < b then -1 else if a = b then 0 else 1

/-- The sort comparator of `refreshCache`: compare natural-key prefixes
first, then the parsed numeric suffixes. -/
def cmpServer (a b : ServerInfo) : Int :=
  let ka := naturalKey a.serverId
  let kb := naturalKey b.serverId
  if ka.1 ≠ kb.1 then strCmpInt ka.1 kb.1 else ka.2 - kb.2

/-- The total preorder induced by the comparator (`cmp(a,b) <= 0`). -/
def serverLE (a b : ServerInfo) : Prop := cmpServer a b ≤ 0

instance : DecidableRel serverLE :=
  fun a b => inferInstanceAs (Decidable (cmpServer a b ≤ 0))

/-- `activeServers.sort(comparator)`: JavaScript sort is stable, so it is the
stable sort by the induced preorder. -/
def sortServers (l : List ServerInfo) : List ServerInfo :=
  List.insertionSort serverLE l

/-- The alive partition built by the `forEach` of `refreshCache`: entries
whose marker exists contribute their parsed record; a record that fails to
parse is silently skipped by the `catch`. -/
def activeOf (entries : List (String × Option ServerInfo))
    (marker : String → Bool) : List ServerInfo :=
  (entries.filter (fun e => marker e.1)).filterMap (fun e => e.2)

/-- The dead partition built by the `forEach` of `refreshCache`: the ids of
the entries whose liveness marker does not exist. -/
def deadOf (entries : List (String × Option ServerInfo))
    (marker : String → Bool) : List String :=
  (entries.filter (fun e => !(marker e.1))).map (fun e => e.1)

/-- `findIndex` on the sorted list, with the JavaScript `-1` sentinel. -/
def myIndexOf (sid : String) (l : List ServerInfo) : Int :=
  match l.findIdx? (fun s => s.serverId == sid) with
  | some i => (i : Int)
  | none => -1

/-- The snapshot `refreshCache` assigns to `_cache` from a nonempty entry
list: liveness-filtered, naturally sorted, with `count`, `myIndex` and
`updatedAt`. -/
def snapshotOf (sid : String) (nowMs : Nat)
    (entries : List (String × Option ServerInfo))
    (marker : String → Bool) : ServerCache :=
  let sorted := sortServers (activeOf entries marker)
  { servers := sorted, count := sorted.length,
    myIndex := myIndexOf sid sorted, updatedAt := nowMs }

/-- The snapshot produced by one successful `refreshCache` body, including
the early return on an empty hash. -/
def refreshSnapshot (sid : String) (nowMs : Nat)
    (entries : List (String × Option ServerInfo))
    (marker : String → Bool) : ServerCache :=
  if entries.isEmpty then
    { servers := [], count := 0, myIndex := -1, updatedAt := nowMs }
  else snapshotOf sid nowMs entries marker

/-- Redis commands issued by the module, with `JSON.stringify` of a record
abstracted into the command payload. -/
inductive Cmd where
  | hGetAll (key : String)
  | existsQ (key : String)
  | hSet (key field : String) (value : ServerInfo)
  | setEx (key value : String) (ttl : Nat)
  | hDel (key : String) (fields : List String)
  | del (key : String)
deriving Repr, DecidableEq

/-- The round trips (pipelines) a successful `refreshCache` issues with an
open client: the `hGetAll`, then — unless the hash was empty — one pipeline
of `EXISTS` probes, then, only when some entry is dead, one `hDel` of the
dead ids. -/
def refreshTrips (entries : List (String × Option ServerInfo))
    (marker : String → Bool) : List (List Cmd) :=
  if entries.isEmpty then [[Cmd.hGetAll REGISTRY_KEY]]
  else
    [Cmd.hGetAll REGISTRY_KEY] ::
      (entries.map (fun e => Cmd.existsQ (ttlKey e.1))) ::
      (if (deadOf entries marker).isEmpty then []
       else [[Cmd.hDel REGISTRY_KEY (deadOf entries marker)]])

/-- JavaScript `a || b` on a possibly-undefined string: the fallback is used
when the value is undefined or falsy (the empty string). -/
def jsOrElse (s : Option String) (dflt : String) : String :=
  match s with
  | some v => if v = "" then dflt else v
  | none => dflt

/-- The `ServerInfo` literal built by `writeHeartbeat`. -/
def heartbeatInfo (sid host : String) (pid : Nat)
    (startedGlobal : Option String) (now : String) : ServerInfo :=
  { serverId := sid, hostname := host, pid := pid,
    startedAt := jsOrElse startedGlobal now, lastHeartbeat := now }

/-- The round trips issued by `writeHeartbeat`: nothing when the client is
not open, otherwise exactly one pipeline carrying the record upsert and the
TTL-marker set. -/
def writeHeartbeatTrips (isOpen : Bool) (sid host : String) (pid : Nat)
    (startedGlobal : Option String) (now : String) : List (List Cmd) :=
  if isOpen then
    [[Cmd.hSet REGISTRY_KEY sid (heartbeatInfo sid host pid startedGlobal now),
      Cmd.setEx (ttlKey sid) "1" HEARTBEAT_TTL]]
  else []

/-- `refreshCache` with every awaited store call allowed to reject, for the
failure-propagation analysis: `fetch` is the `hGetAll`, `aliveResp` the
`EXISTS` pipeline (as a liveness oracle), `delResp` the dead-entry `hDel`.
The function has no `try`/`catch`, so the first rejection propagates; a
closed client returns early leaving the old cache in place. -/
def refreshCacheExc (isOpen : Bool) (sid : String) (nowMs : Nat)
    (fetch : Except String (List (String × Option ServerInfo)))
    (aliveResp : Except String (String → Bool))
    (delResp : Except String Unit)
    (old : ServerCache) : Except String ServerCache :=
  if isOpen then
    match fetch with
    | .error e => .error e
    | .ok entries =>
      if entries.isEmpty then
        .ok { servers := [], count := 0, myIndex := -1, updatedAt := nowMs }
      else
        match aliveResp with
        | .error e => .error e
        | .ok marker =>
          if (deadOf entries marker).isEmpty then
            .ok (snapshotOf sid nowMs entries marker)
          else
            match delResp with
            | .error e => .error e
            | .ok _ => .ok (snapshotOf sid nowMs entries marker)
  else .ok old

/-- `getActiveServers`: forced refresh, then the cache's server list. -/
def getActiveServersRun (isOpen : Bool) (sid : String) (nowMs : Nat)
    (fetch : Except String (List (String × Option ServerInfo)))
    (aliveResp : Except String (String → Bool))
    (delResp : Except String Unit)
    (old : ServerCache) : Except String (List ServerInfo) :=
  match refreshCacheExc isOpen sid nowMs fetch aliveResp delResp old with
  | .error e => .error e
  | .ok c => .ok c.servers

/-- `getActiveServerCount`: forced refresh, then the cache's count. -/
def getActiveServerCountRun (isOpen : Bool) (sid : String) (nowMs : Nat)
    (fetch : Except String (List (String × Option ServerInfo)))
    (aliveResp : Except String (String → Bool))
    (delResp : Except String Unit)
    (old : ServerCache) : Except String Nat :=
  match refreshCacheExc isOpen sid nowMs fetch aliveResp delResp old with
  | .error e => .error e
  | .ok c => .ok c.count

/-- The module-level mutable state: the `heartbeatTimer` variable, the
`__serverStartedAt` global, the `_cache` snapshot, plus the ambient timer
system (fresh-id supply and the set of intervals created and not cleared). -/
structure RegState where
  heartbeatTimer : Option Nat
  startedGlobal : Option String
  cache : ServerCache
  nextTimerId : Nat
  activeTimers : List Nat
deriving Repr, DecidableEq

/-- `startServerRegistry`: records the start time, writes one heartbeat,
refreshes the cache, and unconditionally installs a new periodic timer,
overwriting the `heartbeatTimer` variable.  There is no already-running
guard anywhere in the function. -/
def startServerRegistry (isOpen : Bool) (sid host : String) (pid : Nat)
    (nowIso : String) (nowMs : Nat)
    (entries : List (String × Option ServerInfo)) (marker : String → Bool)
    (st : RegState) : RegState × List (List Cmd) :=
  let started := some nowIso
  let hbTrips := writeHeartbeatTrips isOpen sid host pid started nowIso
  let rTrips := if isOpen then refreshTrips entries marker else []
  let cache1 := if isOpen then refreshSnapshot sid nowMs entries marker else st.cache
  ({ heartbeatTimer := some st.nextTimerId,
     startedGlobal := started,
     cache := cache1,
     nextTimerId := st.nextTimerId + 1,
     activeTimers := st.activeTimers ++ [st.nextTimerId] },
   hbTrips ++ rTrips)

/-- `stopServerRegistry`: clears the interval if the variable holds one,
then — whenever the client is open — deletes this server's record field and
its liveness-marker key, one await each. -/
def stopServerRegistry (isOpen : Bool) (sid : String) (st : RegState) :
    RegState × List (List Cmd) :=
  let st1 :=
    match st.heartbeatTimer with
    | some t => { st with heartbeatTimer := none,
                          activeTimers := st.activeTimers.erase t }
    | none => st
  (st1,
   if isOpen then [[Cmd.hDel REGISTRY_KEY [sid]], [Cmd.del (ttlKey sid)]]
   else [])

/-- `getCachedActiveServers`: value returned, state after, commands issued. -/
def getCachedActiveServers (st : RegState) :
    List ServerInfo × RegState × List (List Cmd) :=
  (st.cache.servers, st, [])

/-- `getCachedServerCount`: value returned, state after, commands issued. -/
def getCachedServerCount (st : RegState) :
    Nat × RegState × List (List Cmd) :=
  (st.cache.count, st, [])

/-- `getCachedServerIndex`: value returned, state after, commands issued. -/
def getCachedServerIndex (st : RegState) :
    Int × RegState × List (List Cmd) :=
  (st.cache.myIndex, st, [])

/-- A concrete record for a given id (other fields informational). -/
def infoOf (sid : String) : ServerInfo :=
  { serverId := sid, hostname := "h", pid := 1,
    startedAt := "t0", lastHeartbeat := "t1" }

/-- A snapshot left over from an earlier successful refresh, used to observe
staleness. -/
def staleCache : ServerCache :=
  { servers := [infoOf "old-1"], count := 1, myIndex := 0, updatedAt := 7 }

/-- A module state in which the registry is already running: one interval
installed and not cleared. -/
def stRunning : RegState :=
  { heartbeatTimer := some 0, startedGlobal := some "t0", cache := initCache,
    nextTimerId := 1, activeTimers := [0] }

/-- The well-formedness the spec demands of every observable snapshot. -/
def cacheWellFormed (c : ServerCache) : Prop :=
  c.count = c.servers.length ∧
    (c.myIndex = -1 ∨ (0 ≤ c.myIndex ∧ c.myIndex < (c.count : Int)))

/-- `findIdx?` started at accumulator `j` only reports positions below
`j + length`. -/
theorem findIdx?_lt_length {α : Type} (p : α → Bool) :
    ∀ (l : List α) (j i : Nat), List.findIdx? p l j = some i → i < j + l.length := by
  intro l
  induction l with
  | nil => intro j i h; simp [List.findIdx?] at h
  | cons x xs ih =>
    intro j i h
    rw [List.findIdx?_cons] at h
    by_cases hp : p x = true
    · rw [if_pos hp] at h
      have : j = i := by injection h
      simp [← this]
    · rw [if_neg hp] at h
      have := ih (j + 1) i h
      simp only [List.length_cons]
      omega

/-- The `findIndex` result is the sentinel or a valid position. -/
theorem myIndexOf_bound (sid : String) (l : List ServerInfo) :
    myIndexOf sid l = -1 ∨
      (0 ≤ myIndexOf sid l ∧ myIndexOf sid l < (l.length : Int)) := by
  unfold myIndexOf
  cases h : List.findIdx? (fun s => s.serverId == sid) l 0 with
  | none => exact Or.inl rfl
  | some i =>
    right
    have hb := findIdx?_lt_length _ l 0 i h
    have hi : i < l.length := by omega
    refine ⟨Int.ofNat_nonneg i, ?_⟩
    show (i : Int) < (l.length : Int)
    exact_mod_cast hi

/-- The comparator is sign-antisymmetric. -/
theorem strCmpInt_swap (a b : String) : strCmpInt b a = -strCmpInt a b := by
  unfold strCmpInt
  rcases lt_trichotomy a b with h | h | h
  · rw [if_pos h, if_neg (lt_asymm h), if_neg (ne_of_gt h)]
    norm_num
  · rw [h]
    simp
  · rw [if_pos h, if_neg (lt_asymm h), if_neg (ne_of_gt h)]

/-- Swapping the comparator's arguments negates the result. -/
theorem cmpServer_swap (a b : ServerInfo) : cmpServer b a = -cmpServer a b := by
  unfold cmpServer
  by_cases h : (naturalKey a.serverId).1 = (naturalKey b.serverId).1
  · rw [if_neg (by simp [h]), if_neg (by simp [h])]
    omega
  · rw [if_pos (by simp [Ne.symm h]), if_pos (by simp [h])]
    exact strCmpInt_swap _ _

/-- The comparator orders by the lexicographic order on natural keys. -/
theorem cmpServer_le_iff (a b : ServerInfo) :
    cmpServer a b ≤ 0 ↔
      ((naturalKey a.serverId).1 < (naturalKey b.serverId).1 ∨
        ((naturalKey a.serverId).1 = (naturalKey b.serverId).1 ∧
          (naturalKey a.serverId).2 ≤ (naturalKey b.serverId).2)) := by
  unfold cmpServer strCmpInt
  by_cases h : (naturalKey a.serverId).1 = (naturalKey b.serverId).1
  · rw [if_neg (by simp [h])]
    constructor
    · intro hle
      exact Or.inr ⟨h, by omega⟩
    · intro hd
      rcases hd with hlt | ⟨_, hle⟩
      · exact absurd h (ne_of_lt hlt)
      · omega
  · rw [if_pos (by simp [h])]
    by_cases hlt : (naturalKey a.serverId).1 < (naturalKey b.serverId).1
    · rw [if_pos hlt]
      constructor
      · intro _; exact Or.inl hlt
      · intro _; omega
    · rw [if_neg hlt, if_neg h]
      constructor
      · intro hc; omega
      · intro hd
        rcases hd with hl | ⟨he, _⟩
        · exact absurd hl hlt
        · exact absurd he h

/-- The comparator-induced order is total. -/
theorem serverLE_total : ∀ a b, serverLE a b ∨ serverLE b a := by
  intro a b
  unfold serverLE
  rw [cmpServer_swap]
  omega

/-- The comparator-induced order is transitive. -/
theorem serverLE_trans : ∀ a b c, serverLE a b → serverLE b c → serverLE a c := by
  intro a b c hab hbc
  unfold serverLE at *
  rw [cmpServer_le_iff] at *
  rcases hab with h1 | ⟨h1, h1n⟩ <;> rcases hbc with h2 | ⟨h2, h2n⟩
  · exact Or.inl (lt_trans h1 h2)
  · exact Or.inl (h2 ▸ h1)
  · exact Or.inl (h1 ▸ h2)
  · exact Or.inr ⟨h1.trans h2, le_trans h1n h2n⟩

/-- The code's sort is a permutation of its input. -/
theorem sortServers_perm (l : List ServerInfo) : (sortServers l).Perm l :=
  List.perm_insertionSort _ _

/-- The code's sort output is sorted by the comparator-induced order. -/
theorem sortServers_sorted (l : List ServerInfo) :
    (sortServers l).Sorted serverLE := by
  haveI : IsTotal ServerInfo serverLE := ⟨serverLE_total⟩
  haveI : IsTrans ServerInfo serverLE := ⟨fun _ _ _ => serverLE_trans _ _ _⟩
  exact List.sorted_insertionSort serverLE l

/-- Two sorted permutations of each other agree when the order is
antisymmetric on their members. -/
theorem sorted_eq_of_perm_of_antisymmOn {α : Type} {r : α → α → Prop} :
    ∀ (l₁ l₂ : List α),
      (∀ a ∈ l₁, ∀ b ∈ l₁, r a b → r b a → a = b) →
      l₁.Perm l₂ → l₁.Sorted r → l₂.Sorted r → l₁ = l₂ := by
  intro l₁
  induction l₁ with
  | nil => intro l₂ _ hp _ _; exact hp.nil_eq
  | cons a t₁ ih =>
    intro l₂ has hp s₁ s₂
    cases l₂ with
    | nil => exact absurd hp.eq_nil (by simp)
    | cons b t₂ =>
      have hab : a = b := by
        by_contra hne
        have hbmem : b ∈ a :: t₁ := hp.symm.subset (List.mem_cons_self b t₂)
        have hamem : a ∈ b :: t₂ := hp.subset (List.mem_cons_self a t₁)
        have hb' : b ∈ t₁ := by
          rcases List.mem_cons.mp hbmem with h | h
          · exact absurd h.symm hne
          · exact h
        have ha' : a ∈ t₂ := by
          rcases List.mem_cons.mp hamem with h | h
          · exact absurd h hne
          · exact h
        have hrab : r a b := (List.sorted_cons.mp s₁).1 b hb'
        have hrba : r b a := (List.sorted_cons.mp s₂).1 a ha'
        exact hne (has a (List.mem_cons_self a t₁) b (List.mem_cons_of_mem a hb') hrab hrba)
      subst hab
      have ht : t₁ = t₂ :=
        ih t₂
          (fun x hx y hy hxy hyx =>
            has x (List.mem_cons_of_mem a hx) y (List.mem_cons_of_mem a hy) hxy hyx)
          hp.cons_inv s₁.of_cons s₂.of_cons
      rw [ht]

/-- Membership in the dead partition characterised. -/
theorem mem_deadOf (entries : List (String × Option ServerInfo))
    (marker : String → Bool) (id : String) :
    id ∈ deadOf entries marker ↔ ∃ v, (id, v) ∈ entries ∧ marker id = false := by
  unfold deadOf
  constructor
  · intro h
    rcases List.mem_map.mp h with ⟨e, he, hfst⟩
    rcases List.mem_filter.mp he with ⟨hmem, hmk⟩
    refine ⟨e.2, ?_, ?_⟩
    · rw [← hfst]
      exact hmem
    · rw [← hfst]
      simpa using hmk
  · intro ⟨v, hmem, hmk⟩
    exact List.mem_map.mpr ⟨(id, v), List.mem_filter.mpr ⟨hmem, by simp [hmk]⟩, rfl⟩

/-- Every server in a refreshed snapshot comes from a stored entry whose
liveness marker was present and whose record parsed. -/
theorem servers_from_alive (sid : String) (nowMs : Nat)
    (entries : List (String × Option ServerInfo)) (marker : String → Bool) :
    ∀ s ∈ (snapshotOf sid nowMs entries marker).servers,
      ∃ k, (k, some s) ∈ entries ∧ marker k = true := by
  intro s hs
  have hs' : s ∈ activeOf entries marker := (sortServers_perm _).subset hs
  unfold activeOf at hs'
  rcases List.mem_filterMap.mp hs' with ⟨e, he, hsome⟩
  rcases List.mem_filter.mp he with ⟨hmem, hmk⟩
  rcases e with ⟨k, v⟩
  simp only at hsome hmk
  subst hsome
  exact ⟨k, hmem, hmk⟩

/-- C1: the cache refresher's natural sort is claimed to split an id into a
non-numeric prefix and a trailing digit run, so that the id set
{server-2, server-10, server-1} sorts to [server-1, server-2, server-10].
The code's lazy-prefix regex instead hands the separator hyphen to the
numeric group, producing the keys ("server", -2), ("server", -10),
("server", -1); the ascending numeric comparison therefore yields
[server-10, server-2, server-1], contradicting the claim and the comment in
the source next to the comparator, which is a bug in the code. -/
theorem c1_natural_sort_negative_suffix :
    naturalKey "server-2" = ("server", -2) ∧
    naturalKey "server-10" = ("server", -10) ∧
    naturalKey "server-1" = ("server", -1) ∧
    sortServers [infoOf "server-2", infoOf "server-10", infoOf "server-1"] =
      [infoOf "server-10", infoOf "server-2", infoOf "server-1"] ∧
    (snapshotOf "server-1" 0
        [("server-2", some (infoOf "server-2")),
         ("server-10", some (infoOf "server-10")),
         ("server-1", some (infoOf "server-1"))] (fun _ => true)).servers =
      [infoOf "server-10", infoOf "server-2", infoOf "server-1"] :=
  ⟨by decide, by decide, by decide, by decide, by decide⟩

/-- C2 counterexample: starting the registry while it is already running
(one interval installed and not cleared) is not a no-op: the state changes
and a second periodic timer now exists alongside the first. -/
theorem c2_counterexample_second_start_not_noop :
    (startServerRegistry true "s1" "h" 1 "t1" 5 [] (fun _ => false) stRunning).1
        ≠ stRunning ∧
    (startServerRegistry true "s1" "h" 1 "t1" 5 [] (fun _ => false)
        stRunning).1.activeTimers = [0, 1] :=
  ⟨by decide, by decide⟩

/-- C2 amended: `startServerRegistry` has no running-state guard.  Invoked
while a timer is already installed, it installs a second periodic timer —
the previously installed timer stays live while the stored handle is
overwritten with the new one — instead of being a no-op. -/
theorem c2_amended_second_start_installs_second_timer
    (isOpen : Bool) (sid host : String) (pid : Nat) (nowIso : String)
    (nowMs : Nat) (entries : List (String × Option ServerInfo))
    (marker : String → Bool) (st : RegState) (t : Nat)
    (_hrun : st.heartbeatTimer = some t) (hmem : t ∈ st.activeTimers) :
    (startServerRegistry isOpen sid host pid nowIso nowMs entries marker
        st).1.heartbeatTimer = some st.nextTimerId ∧
    (startServerRegistry isOpen sid host pid nowIso nowMs entries marker
        st).1.activeTimers = st.activeTimers ++ [st.nextTimerId] ∧
    t ∈ (startServerRegistry isOpen sid host pid nowIso nowMs entries marker
        st).1.activeTimers ∧
    (startServerRegistry isOpen sid host pid nowIso nowMs entries marker
        st).1.activeTimers.length = st.activeTimers.length + 1 := by
  refine ⟨rfl, rfl, ?_, by simp [startServerRegistry]⟩
  simp only [startServerRegistry, List.mem_append]
  exact Or.inl hmem

/-- C2 witness: the amended statement at a concrete running state. -/
theorem c2_amended_witness :
    stRunning.heartbeatTimer = some 0 ∧
    0 ∈ (startServerRegistry true "s1" "h" 1 "t1" 5 [] (fun _ => false)
        stRunning).1.activeTimers ∧
    (startServerRegistry true "s1" "h" 1 "t1" 5 [] (fun _ => false)
        stRunning).1.activeTimers.length = stRunning.activeTimers.length + 1 :=
  ⟨rfl,
   (c2_amended_second_start_installs_second_timer true "s1" "h" 1 "t1" 5 []
      (fun _ => false) stRunning 0 rfl (by decide)).2.2.1,
   (c2_amended_second_start_installs_second_timer true "s1" "h" 1 "t1" 5 []
      (fun _ => false) stRunning 0 rfl (by decide)).2.2.2⟩

/-- C3 counterexample: after one stop has already deregistered the server, a
second stop with an open client issues the record-field and marker-key
deletions again — the deregistration store calls are repeated, not performed
at most once. -/
theorem c3_counterexample_second_stop_repeats_deletions :
    (stopServerRegistry true "s1" (stopServerRegistry true "s1" stRunning).1).2
        = [[Cmd.hDel REGISTRY_KEY ["s1"]], [Cmd.del (ttlKey "s1")]] ∧
    (stopServerRegistry true "s1" (stopServerRegistry true "s1" stRunning).1).2
        ≠ [] :=
  ⟨by decide, by decide⟩

/-- C3 amended: calling stop twice in a row produces no error and clears the
timer at most once — the second call leaves the module state unchanged — but
the record-field and marker-key deletions are re-issued by every call made
with an open client (harmlessly, since the keys are already gone). -/
theorem c3_amended_double_stop (isOpen : Bool) (sid : String) (st : RegState) :
    (stopServerRegistry isOpen sid (stopServerRegistry isOpen sid st).1).1
        = (stopServerRegistry isOpen sid st).1 ∧
    (stopServerRegistry isOpen sid st).1.heartbeatTimer = none ∧
    (stopServerRegistry isOpen sid (stopServerRegistry isOpen sid st).1).2
        = (stopServerRegistry isOpen sid st).2 := by
  cases h : st.heartbeatTimer <;> simp [stopServerRegistry, h]

/-- C6: with an open client, `writeHeartbeat` issues exactly one pipelined
round trip, whose content is precisely the record upsert — `lastHeartbeat`
stamped to now, `startedAt` the (nonempty) value recorded at process start —
and the liveness-marker set with the fixed TTL; no write happens outside
that single batch. -/
theorem c6_heartbeat_single_batch (sid host : String) (pid : Nat)
    (started nowIso : String) (hs : started ≠ "") :
    writeHeartbeatTrips true sid host pid (some started) nowIso =
      [[Cmd.hSet REGISTRY_KEY sid
          { serverId := sid, hostname := host, pid := pid,
            startedAt := started, lastHeartbeat := nowIso },
        Cmd.setEx (ttlKey sid) "1" HEARTBEAT_TTL]] := by
  simp [writeHeartbeatTrips, heartbeatInfo, jsOrElse, hs]

/-- C6 witness: the single-batch heartbeat at concrete values. -/
theorem c6_heartbeat_single_batch_witness :
    writeHeartbeatTrips true "s1" "h" 1 (some "t0") "t1" =
      [[Cmd.hSet REGISTRY_KEY "s1"
          { serverId := "s1", hostname := "h", pid := 1,
            startedAt := "t0", lastHeartbeat := "t1" },
        Cmd.setEx (ttlKey "s1") "1" HEARTBEAT_TTL]] :=
  c6_heartbeat_single_batch "s1" "h" 1 "t0" "t1" (by decide)

/-- C10: each cached-tier accessor returns the corresponding field of the
current in-memory snapshot, leaves the module state unchanged, and issues
zero store commands. -/
theorem c10_cached_accessors_pure (st : RegState) :
    getCachedActiveServers st = (st.cache.servers, st, []) ∧
    getCachedServerCount st = (st.cache.count, st, []) ∧
    getCachedServerIndex st = (st.cache.myIndex, st, []) :=
  ⟨rfl, rfl, rfl⟩

/-- C4 counterexample: a stored entry whose liveness marker is present but
whose record is unparsable is skipped by the catch: it is not partitioned as
dead, and the pass issues no deletion at all for it. -/
theorem c4_counterexample_unparsable_alive_not_dead :
    deadOf [("s1", (none : Option ServerInfo))] (fun _ => true) = [] ∧
    refreshTrips [("s1", (none : Option ServerInfo))] (fun _ => true) =
      [[Cmd.hGetAll REGISTRY_KEY], [Cmd.existsQ (ttlKey "s1")]] :=
  ⟨by decide, by decide⟩

/-- C4 amended: only entries whose liveness marker is absent are partitioned
as dead and deleted.  An entry whose marker is present is never in the dead
partition nor in any deletion the pass issues, even when its record is
unparsable; an unparsable record merely contributes nothing to the snapshot,
whose servers all come from parsable entries with a present marker. -/
theorem c4_amended_dead_iff_marker_absent (sid : String) (nowMs : Nat)
    (entries : List (String × Option ServerInfo)) (marker : String → Bool)
    (id : String) (hm : marker id = true) :
    id ∉ deadOf entries marker ∧
    (∀ trip ∈ refreshTrips entries marker,
        ∀ key ds, Cmd.hDel key ds ∈ trip → id ∉ ds) ∧
    (∀ s ∈ (snapshotOf sid nowMs entries marker).servers,
        ∃ k, (k, some s) ∈ entries ∧ marker k = true) := by
  have hnotdead : id ∉ deadOf entries marker := by
    intro h
    rcases (mem_deadOf entries marker id).mp h with ⟨v, _, hmk⟩
    rw [hm] at hmk
    exact absurd hmk (by simp)
  refine ⟨hnotdead, ?_, servers_from_alive sid nowMs entries marker⟩
  intro trip htrip key ds hdel
  unfold refreshTrips at htrip
  by_cases hemp : entries.isEmpty
  · rw [if_pos hemp] at htrip
    rcases List.mem_singleton.mp htrip ▸ hdel with h
    simp at h
  · rw [if_neg hemp] at htrip
    rcases List.mem_cons.mp htrip with h1 | htrip2
    · subst h1
      simp at hdel
    · rcases List.mem_cons.mp htrip2 with h2 | htrip3
      · subst h2
        rcases List.mem_map.mp hdel with ⟨e, _, habs⟩
        simp at habs
      · by_cases hdd : (deadOf entries marker).isEmpty
        · rw [if_pos hdd] at htrip3
          simp at htrip3
        · rw [if_neg hdd] at htrip3
          have h3 : trip = [Cmd.hDel REGISTRY_KEY (deadOf entries marker)] :=
            List.mem_singleton.mp htrip3
          subst h3
          have h4 := List.mem_singleton.mp hdel
          have h5 : ds = deadOf entries marker := by
            injection h4 with _ h5
          rw [h5]
          exact hnotdead

/-- C4 witness: the amended statement at the concrete counterexample
entry. -/
theorem c4_amended_witness :
    "s1" ∉ deadOf [("s1", (none : Option ServerInfo))] (fun _ => true) :=
  (c4_amended_dead_iff_marker_absent "s1" 0
      [("s1", (none : Option ServerInfo))] (fun _ => true) "s1" rfl).1

/-- C5 counterexample: with the client closed (store unavailable) and a
stale snapshot in memory, both forced-refresh accessors silently succeed
with the stale cached data instead of propagating a failure. -/
theorem c5_counterexample_closed_client_returns_stale :
    getActiveServersRun false "s1" 9 (Except.error "connection lost")
        (Except.error "connection lost") (Except.error "connection lost")
        staleCache = Except.ok [infoOf "old-1"] ∧
    getActiveServerCountRun false "s1" 9 (Except.error "connection lost")
        (Except.error "connection lost") (Except.error "connection lost")
        staleCache = Except.ok 1 :=
  ⟨rfl, rfl⟩

/-- C5 amended: with an open client every store-call rejection during the
forced refresh propagates to the caller — the `hGetAll`, the `EXISTS`
pipeline, and the dead-entry `hDel` — but when the client is closed or null
the refresh returns early and the accessors silently return the previously
cached (stale) data with no error. -/
theorem c5_amended_propagation (sid : String) (nowMs : Nat)
    (fetch : Except String (List (String × Option ServerInfo)))
    (aliveResp : Except String (String → Bool)) (delResp : Except String Unit)
    (old : ServerCache) :
    (getActiveServersRun false sid nowMs fetch aliveResp delResp old
        = Except.ok old.servers) ∧
    (getActiveServerCountRun false sid nowMs fetch aliveResp delResp old
        = Except.ok old.count) ∧
    (∀ e, fetch = Except.error e →
        getActiveServersRun true sid nowMs fetch aliveResp delResp old
          = Except.error e ∧
        getActiveServerCountRun true sid nowMs fetch aliveResp delResp old
          = Except.error e) ∧
    (∀ e entries, fetch = Except.ok entries → entries.isEmpty = false →
        aliveResp = Except.error e →
        getActiveServersRun true sid nowMs fetch aliveResp delResp old
          = Except.error e) ∧
    (∀ e entries marker, fetch = Except.ok entries → entries.isEmpty = false →
        aliveResp = Except.ok marker →
        (deadOf entries marker).isEmpty = false → delResp = Except.error e →
        getActiveServersRun true sid nowMs fetch aliveResp delResp old
          = Except.error e) := by
  refine ⟨rfl, rfl, ?_, ?_, ?_⟩
  · intro e hf
    subst hf
    exact ⟨rfl, rfl⟩
  · intro e entries hf hemp ha
    subst hf
    subst ha
    simp [getActiveServersRun, refreshCacheExc, hemp]
  · intro e entries marker hf hemp ha hdd hd
    subst hf
    subst ha
    subst hd
    simp [getActiveServersRun, refreshCacheExc, hemp, hdd]

/-- C5 witness: the amended statement at concrete inputs — the silent stale
read with a closed client, and a propagated rejection with an open one. -/
theorem c5_amended_witness :
    getActiveServersRun false "s1" 9 (Except.error "down") (Except.error "down")
        (Except.error "down") staleCache = Except.ok staleCache.servers ∧
    getActiveServersRun true "s1" 9 (Except.error "down") (Except.error "down")
        (Except.error "down") staleCache = Except.error "down" :=
  ⟨(c5_amended_propagation "s1" 9 (Except.error "down") (Except.error "down")
      (Except.error "down") staleCache).1,
   ((c5_amended_propagation "s1" 9 (Except.error "down") (Except.error "down")
      (Except.error "down") staleCache).2.2.1 "down" rfl).1⟩

/-- C7: during a refresh, a stored entry whose liveness marker is absent is
partitioned as dead; its id is part of the `hDel` round trip issued against
the registry hash in the same pass; and the resulting snapshot excludes it —
every snapshot server comes from a marker-present entry, and the count is
the length of that list. -/
theorem c7_ttl_eviction (sid : String) (nowMs : Nat)
    (entries : List (String × Option ServerInfo)) (marker : String → Bool)
    (id : String) (v : Option ServerInfo)
    (hmem : (id, v) ∈ entries) (hm : marker id = false) :
    id ∈ deadOf entries marker ∧
    [Cmd.hDel REGISTRY_KEY (deadOf entries marker)]
        ∈ refreshTrips entries marker ∧
    (∀ s ∈ (snapshotOf sid nowMs entries marker).servers,
        ∃ k, (k, some s) ∈ entries ∧ marker k = true) ∧
    (snapshotOf sid nowMs entries marker).count
        = (snapshotOf sid nowMs entries marker).servers.length := by
  have hdead : id ∈ deadOf entries marker :=
    (mem_deadOf entries marker id).mpr ⟨v, hmem, hm⟩
  have hemp : entries.isEmpty = false := by
    cases entries with
    | nil => cases hmem
    | cons x xs => rfl
  have hdd : (deadOf entries marker).isEmpty = false := by
    cases hdo : deadOf entries marker with
    | nil => rw [hdo] at hdead; cases hdead
    | cons x xs => rfl
  refine ⟨hdead, ?_, servers_from_alive sid nowMs entries marker, rfl⟩
  unfold refreshTrips
  rw [if_neg (by simp [hemp]), if_neg (by simp [hdd])]
  exact List.mem_cons_of_mem _ (List.mem_cons_of_mem _ (List.mem_singleton.mpr rfl))

/-- C7 witness: eviction of a concrete marker-absent entry. -/
theorem c7_ttl_eviction_witness :
    "dead1" ∈ deadOf
        [("dead1", some (infoOf "dead1")), ("live1", some (infoOf "live1"))]
        (fun k => k == "live1") ∧
    [Cmd.hDel REGISTRY_KEY
        (deadOf [("dead1", some (infoOf "dead1")),
                 ("live1", some (infoOf "live1"))] (fun k => k == "live1"))]
      ∈ refreshTrips
          [("dead1", some (infoOf "dead1")), ("live1", some (infoOf "live1"))]
          (fun k => k == "live1") :=
  ⟨(c7_ttl_eviction "live1" 3
      [("dead1", some (infoOf "dead1")), ("live1", some (infoOf "live1"))]
      (fun k => k == "live1") "dead1" (some (infoOf "dead1"))
      (by decide) (by decide)).1,
   (c7_ttl_eviction "live1" 3
      [("dead1", some (infoOf "dead1")), ("live1", some (infoOf "live1"))]
      (fun k => k == "live1") "dead1" (some (infoOf "dead1"))
      (by decide) (by decide)).2.1⟩

/-- C8: the initial empty snapshot and every snapshot a refresh produces are
well-formed: `count` equals the length of `servers`, and `myIndex` is the
sentinel −1 or lies in `[0, count)`; snapshots are whole-value replacements
of `_cache`, so no other snapshot state is ever observable. -/
theorem c8_snapshot_invariant :
    cacheWellFormed initCache ∧
    ∀ sid nowMs entries marker,
      cacheWellFormed (refreshSnapshot sid nowMs entries marker) := by
  refine ⟨⟨rfl, Or.inl rfl⟩, ?_⟩
  intro sid nowMs entries marker
  unfold refreshSnapshot
  by_cases h : entries.isEmpty
  · rw [if_pos h]
    exact ⟨rfl, Or.inl rfl⟩
  · rw [if_neg h]
    refine ⟨rfl, ?_⟩
    have := myIndexOf_bound sid (sortServers (activeOf entries marker))
    simpa [snapshotOf] using this

/-- C9 counterexample: the refresh's sort-and-index computation is not a
function of the id set alone.  The ids "a" and "a0" have the identical
natural key ("a", 0) — "a" has no trailing digits so its suffix defaults to
0, while "a0" parses its trailing 0 — so the stable sort preserves whichever
order the hash enumeration returned, and `my_index` of "a" is 0 after one
refresh and 1 after a refresh that read the same set in the other order. -/
theorem c9_counterexample_tie_order_dependent :
    ([("a", some (infoOf "a")), ("a0", some (infoOf "a0"))].Perm
        [("a0", some (infoOf "a0")), ("a", some (infoOf "a"))]) ∧
    naturalKey "a" = naturalKey "a0" ∧
    (snapshotOf "a" 0 [("a", some (infoOf "a")), ("a0", some (infoOf "a0"))]
        (fun _ => true)).myIndex = 0 ∧
    (snapshotOf "a" 0 [("a0", some (infoOf "a0")), ("a", some (infoOf "a"))]
        (fun _ => true)).myIndex = 1 :=
  ⟨List.Perm.swap ("a0", some (infoOf "a0")) ("a", some (infoOf "a")) [],
   by decide, by decide, by decide⟩

/-- C9 amended: the refresh's liveness-filtered sort and index computation is
invariant under the enumeration order of the stored records — two refreshes
over the same set produce the identical snapshot, hence identical `my_index`
for every id — provided the alive records' natural sort keys are pairwise
distinct (the comparator never ties on distinct records).  With tied keys
the order, and hence `my_index`, depends on the read order. -/
theorem c9_amended_deterministic_under_distinct_keys (sid : String)
    (nowMs : Nat) (e1 e2 : List (String × Option ServerInfo))
    (marker : String → Bool) (hperm : e1.Perm e2)
    (hkeys : ∀ a ∈ activeOf e1 marker, ∀ b ∈ activeOf e1 marker,
        a ≠ b → cmpServer a b ≠ 0) :
    snapshotOf sid nowMs e1 marker = snapshotOf sid nowMs e2 marker := by
  have hact : (activeOf e1 marker).Perm (activeOf e2 marker) :=
    (hperm.filter _).filterMap _
  have hsp : (sortServers (activeOf e1 marker)).Perm
      (sortServers (activeOf e2 marker)) :=
    (sortServers_perm _).trans (hact.trans (sortServers_perm _).symm)
  have hanti : ∀ a ∈ sortServers (activeOf e1 marker),
      ∀ b ∈ sortServers (activeOf e1 marker),
        serverLE a b → serverLE b a → a = b := by
    intro a ha b hb hab hba
    by_contra hne
    have h1 : cmpServer a b ≤ 0 := hab
    have h2 : cmpServer b a ≤ 0 := hba
    rw [cmpServer_swap] at h2
    exact hkeys a ((sortServers_perm _).subset ha)
      b ((sortServers_perm _).subset hb) hne (by omega)
  have heq : sortServers (activeOf e1 marker)
      = sortServers (activeOf e2 marker) :=
    sorted_eq_of_perm_of_antisymmOn _ _ hanti hsp
      (sortServers_sorted _) (sortServers_sorted _)
  unfold snapshotOf
  rw [heq]

/-- C9 witness: order-invariance of the snapshot at a concrete two-server
registry whose natural keys are distinct. -/
theorem c9_amended_witness :
    snapshotOf "x-1" 0
        [("x-1", some (infoOf "x-1")), ("x-2", some (infoOf "x-2"))]
        (fun _ => true) =
      snapshotOf "x-1" 0
        [("x-2", some (infoOf "x-2")), ("x-1", some (infoOf "x-1"))]
        (fun _ => true) :=
  c9_amended_deterministic_under_distinct_keys "x-1" 0
    [("x-1", some (infoOf "x-1")), ("x-2", some (infoOf "x-2"))]
    [("x-2", some (infoOf "x-2")), ("x-1", some (infoOf "x-1"))]
    (fun _ => true)
    (List.Perm.swap ("x-2", some (infoOf "x-2")) ("x-1", some (infoOf "x-1")) [])
    (by decide)

end ServerRegistry
